import Mathlib

/-!
# Verification of the miniactor library (src/lib.rs)

The library wraps a `tokio::sync::mpsc` unbounded channel:

* `Handle<M>(mpsc::UnboundedSender<M>)` — a cloneable sending capability;
* `Handle::new(actor)` — creates an unbounded channel, spawns
  `run_actor(receiver, actor)` and returns the sender wrapped in a `Handle`;
* `Handle::send(&self, msg)` — `let _ = self.0.send(msg)`: enqueues the
  message, discarding the error that `UnboundedSender::send` reports when
  the receiver has been dropped;
* `Clone for Handle` — clones the sender (same channel, one more producer);
* `run_actor` — `while let Some(msg) = receiver.recv().await { actor.recv(msg) }`:
  dequeues messages one at a time, calling the actor's `recv` synchronously
  to completion on each, and returns (dropping receiver and actor) when
  `recv().await` yields `None`, i.e. when the queue is empty and every
  sender has been dropped.

We embed this as an interleaving transition system.  The shared channel is a
FIFO list of messages together with the count of live senders (Handles) and a
flag recording whether the receiving end is still alive.  The user-supplied
`Actor::recv` is a parameter `recvF : A → M → Option A`; `none` models a
panic of the handler (the Rust handler either returns, updating the actor
state, or panics).  Events model the actions the embedding code and the
scheduler can interleave: a send through a live Handle, a Handle clone, a
Handle drop, and one iteration of the `run_actor` loop.

The `tokio` channel semantics embedded here: `send` succeeds exactly while
the receiver is alive (otherwise the message is returned as an error, which
`Handle::send` discards); the receiver's `recv().await` yields the next
queued message if one exists, yields `None` (closing the loop) if the queue
is empty and no sender is alive, and blocks (no transition) if the queue is
empty but a sender remains.  When `run_actor` returns or panics, the tokio
task ends and the receiver (with any still-buffered messages) is dropped.
-/

/-- The three possible conditions of the spawned `run_actor` task:
still looping, returned normally (channel closed and drained), or
ended by a panic in `Actor::recv`. -/
inductive LoopSt : Type
  | running : LoopSt
  | terminated : LoopSt
  | panicked : LoopSt
deriving DecidableEq, Repr

/-- The shared state of one `mpsc::unbounded_channel`: the FIFO queue of
buffered messages, the number of live `UnboundedSender` clones (one per live
`Handle`), and whether the `UnboundedReceiver` is still alive. -/
structure Chan (M : Type) where
  queue : List M
  senders : Nat
  receiverAlive : Bool
deriving DecidableEq, Repr

/-- `UnboundedSender::send`: enqueues while the receiver is alive, otherwise
fails, handing the message back inside the error (tokio's `SendError<T>`). -/
def Chan.sendMsg {M : Type} (c : Chan M) (m : M) : Chan M × Except M Unit :=
  if c.receiverAlive then ({ c with queue := c.queue ++ [m] }, Except.ok ())
  else (c, Except.error m)

/-- `Handle::send`: `let _ = self.0.send(msg)` — perform the channel send and
discard its result, so the caller observes only `()`. -/
def Handle.send {M : Type} (c : Chan M) (m : M) : Chan M :=
  (Chan.sendMsg c m).1

/-- `UnboundedSender::clone`, as performed by `Clone for Handle`:
one more live producer on the same channel. -/
def Chan.cloneSender {M : Type} (c : Chan M) : Chan M :=
  { c with senders := c.senders + 1 }

/-- Dropping one `Handle`: one fewer live producer. -/
def Chan.dropSender {M : Type} (c : Chan M) : Chan M :=
  { c with senders := c.senders - 1 }

/-- The whole state of one actor instance: its channel, the condition of its
`run_actor` task, the actor value owned by that task, plus two history
(ghost) fields used only to state properties: `delivered` records, in order,
the messages on which `Actor::recv` was invoked and completed, and `sentOK`
records, in order, the messages that `UnboundedSender::send` accepted. -/
structure Sys (M A : Type) where
  chan : Chan M
  loop : LoopSt
  actor : A
  delivered : List M
  sentOK : List M
deriving DecidableEq, Repr

/-- The state `Handle::new actor` sets up: fresh empty unbounded channel with
one sender (the returned Handle), the `run_actor` task spawned and running,
owning the actor value; nothing delivered or sent yet. -/
def Sys.init {M A : Type} (a : A) : Sys M A :=
  { chan := { queue := [], senders := 1, receiverAlive := true }
    loop := LoopSt.running
    actor := a
    delivered := []
    sentOK := [] }

/-- A send through a live `Handle` (guard `senders > 0`: a Handle must exist
to be sent through): `Handle.send` on the channel, recording in the `sentOK`
history whether the channel accepted the message. -/
def Sys.doSend {M A : Type} (s : Sys M A) (m : M) : Sys M A :=
  if 0 < s.chan.senders then
    { s with
      chan := Handle.send s.chan m
      sentOK := if s.chan.receiverAlive then s.sentOK ++ [m] else s.sentOK }
  else s

/-- `Handle::clone` on a live Handle: one more producer on the same channel;
nothing else changes. -/
def Sys.doClone {M A : Type} (s : Sys M A) : Sys M A :=
  if 0 < s.chan.senders then { s with chan := Chan.cloneSender s.chan } else s

/-- Dropping a `Handle`. -/
def Sys.doDrop {M A : Type} (s : Sys M A) : Sys M A :=
  { s with chan := Chan.dropSender s.chan }

/-- One iteration of `run_actor`'s `while let Some(msg) = receiver.recv().await`:
if a message is queued, dequeue it and run `actor.recv(msg)` to completion
within this single step (on a panic the task ends, dropping the receiver and
the rest of the queue); if the queue is empty and no sender is alive,
`recv().await` yields `None`, the loop returns and the task ends, dropping
the receiver; if the queue is empty but a sender remains, the task stays
blocked on `recv().await` and nothing happens. -/
def Sys.doLoop {M A : Type} (recvF : A → M → Option A) (s : Sys M A) : Sys M A :=
  match s.loop with
  | LoopSt.running =>
    match s.chan.queue with
    | [] =>
      if s.chan.senders = 0 then
        { s with loop := LoopSt.terminated
                 chan := { s.chan with receiverAlive := false } }
      else s
    | m :: rest =>
      match recvF s.actor m with
      | some a2 =>
        { s with actor := a2
                 delivered := s.delivered ++ [m]
                 chan := { s.chan with queue := rest } }
      | none =>
        { s with loop := LoopSt.panicked
                 chan := { s.chan with queue := [], receiverAlive := false } }
  | _ => s

/-- The interleaved actions: a send of a message through a Handle, a Handle
clone, a Handle drop, and the scheduler running one iteration of the
`run_actor` loop. -/
inductive Event (M : Type) : Type
  | send : M → Event M
  | cloneH : Event M
  | dropH : Event M
  | loopStep : Event M
deriving DecidableEq, Repr

/-- One interleaved step of the system. -/
def step {M A : Type} (recvF : A → M → Option A) (s : Sys M A) : Event M → Sys M A
  | Event.send m => s.doSend m
  | Event.cloneH => s.doClone
  | Event.dropH => s.doDrop
  | Event.loopStep => s.doLoop recvF

/-- Run a whole interleaving (event list). -/
def run {M A : Type} (recvF : A → M → Option A) (s : Sys M A) (es : List (Event M)) :
    Sys M A :=
  es.foldl (step recvF) s

/-- The messages a list of events sends, in order. -/
def sendMsgs {M : Type} (es : List (Event M)) : List M :=
  es.filterMap (fun e => match e with | Event.send m => some m | _ => none)

/-- Core state invariant, established by `Sys.init` and preserved by every
step: the receiver is alive exactly while the `run_actor` task is looping;
unless the task panicked, the accepted sends are exactly the delivered
messages followed by the still-queued ones, in order; and once the task has
stopped the queue is empty (the receiver was dropped with its buffer). -/
def SysInv {M A : Type} (s : Sys M A) : Prop :=
  (s.chan.receiverAlive = true ↔ s.loop = LoopSt.running)
  ∧ (s.loop ≠ LoopSt.panicked → s.delivered ++ s.chan.queue = s.sentOK)
  ∧ (s.loop ≠ LoopSt.running → s.chan.queue = [])

/-- When the actor's `recv` never panics, a live Handle keeps the loop
running (the only other way the loop stops is the channel closing, which
requires every Handle to have been dropped first — and once the sender count
hits zero no new Handle can ever be produced). -/
def HandleKeepsAlive {M A : Type} (s : Sys M A) : Prop :=
  0 < s.chan.senders → s.loop = LoopSt.running ∧ s.chan.receiverAlive = true

/-- A collection of independent actor instances, one `Sys` per channel.  A
`Handle` value is embedded as the index of the channel it points to: Rust's
`Handle(self.0.clone())` yields a sender to the *same* channel, i.e. the
same index. -/
structure World (M A : Type) where
  chans : List (Sys M A)
deriving DecidableEq, Repr

/-- Apply `f` to the element at an index of a list (identity out of range). -/
def modifyAt {α : Type} (f : α → α) : Nat → List α → List α
  | _, [] => []
  | 0, x :: xs => f x :: xs
  | n + 1, x :: xs => x :: modifyAt f n xs

/-- `Handle::new(actor)`: allocate a fresh channel with its empty mailbox,
spawn `run_actor` on it owning the actor value, and hand back the Handle to
the new channel.  Total: it returns a usable Handle for every actor value
and every prior world. -/
def Handle.new {M A : Type} (w : World M A) (a : A) : World M A × Nat :=
  ({ chans := w.chans ++ [Sys.init a] }, w.chans.length)

/-- `Clone for Handle`: `Handle(self.0.clone())` — clone the sender of the
channel the Handle points to (one more producer there) and return a Handle
pointing to that same channel. -/
def Handle.clone {M A : Type} (w : World M A) (h : Nat) : World M A × Nat :=
  ({ chans := modifyAt Sys.doClone h w.chans }, h)

/-- Send a message through the Handle `h`: a send on the channel `h` points
to; every other channel is untouched. -/
def World.sendH {M A : Type} (w : World M A) (h : Nat) (m : M) : World M A :=
  { chans := modifyAt (fun s => s.doSend m) h w.chans }

/-- One interleaved event happening at channel `i` of the world. -/
def World.stepAt {M A : Type} (recvF : A → M → Option A) (w : World M A) (i : Nat)
    (e : Event M) : World M A :=
  { chans := modifyAt (fun s => step recvF s e) i w.chans }

/-- A concrete actor for witnesses: state is the list of messages received
so far; `recv` appends and never panics. -/
def recvLog : List Nat → Nat → Option (List Nat) :=
  fun a m => some (a ++ [m])

/-- A concrete event interleaving for witnesses: the single producer sends
1 and 2, the loop gets scheduled once, then the producer sends 3; the
producer never drops its Handle. -/
def esW : List (Event Nat) :=
  [Event.send 1, Event.send 2, Event.loopStep, Event.send 3]

/-- A concrete actor for panic witnesses: `recv` panics on message 0 and
returns normally on anything else. -/
def recvPanic0 : Unit → Nat → Option Unit :=
  fun _ m => if m = 0 then none else some ()

/-- A concrete reachable state with one message still queued. -/
def sOne : Sys Nat (List Nat) :=
  run recvLog (Sys.init []) [Event.send 5]

/-- A concrete reachable state in which two messages were sent and then the
only Handle was dropped: the loop is still running, the mailbox still holds
both messages, and no sender is left. -/
def sDrop : Sys Nat (List Nat) :=
  run recvLog (Sys.init []) [Event.send 1, Event.send 2, Event.dropH]

/-- A concrete reachable state about to panic: message 0 (on which
`recvPanic0` panics) is at the head of the queue, message 1 behind it. -/
def sPanic : Sys Nat Unit :=
  run recvPanic0 (Sys.init ()) [Event.send 0, Event.send 1]

/-- A concrete world holding two independent actor instances. -/
def wEx : World Nat (List Nat) :=
  { chans := [Sys.init [], Sys.init []] }

/-- A concrete world of unit-state actor instances. -/
def wExU : World Nat Unit :=
  { chans := [Sys.init (), Sys.init ()] }

/-! ## Basic equations for `step` and `run` -/

lemma run_nil {M A : Type} (recvF : A → M → Option A) (s : Sys M A) :
    run recvF s [] = s := rfl

lemma run_cons {M A : Type} (recvF : A → M → Option A) (s : Sys M A)
    (e : Event M) (es : List (Event M)) :
    run recvF s (e :: es) = run recvF (step recvF s e) es := rfl

lemma run_append {M A : Type} (recvF : A → M → Option A) (s : Sys M A)
    (es1 es2 : List (Event M)) :
    run recvF s (es1 ++ es2) = run recvF (run recvF s es1) es2 :=
  List.foldl_append _ _ _ _

lemma doSend_pos {M A : Type} {s : Sys M A} (m : M)
    (hs : 0 < s.chan.senders) (ha : s.chan.receiverAlive = true) :
    s.doSend m =
      { s with chan := { s.chan with queue := s.chan.queue ++ [m] }
               sentOK := s.sentOK ++ [m] } := by
  simp [Sys.doSend, Handle.send, Chan.sendMsg, hs, ha]

lemma doSend_dead {M A : Type} {s : Sys M A} (m : M)
    (ha : s.chan.receiverAlive = false) :
    s.doSend m = s := by
  simp [Sys.doSend, Handle.send, Chan.sendMsg, ha]

lemma doSend_noHandle {M A : Type} {s : Sys M A} (m : M)
    (hs : s.chan.senders = 0) :
    s.doSend m = s := by
  simp [Sys.doSend, hs]

lemma doClone_pos {M A : Type} {s : Sys M A} (hs : 0 < s.chan.senders) :
    s.doClone =
      { s with chan := { s.chan with senders := s.chan.senders + 1 } } := by
  simp [Sys.doClone, Chan.cloneSender, hs]

lemma doClone_noHandle {M A : Type} {s : Sys M A} (hs : s.chan.senders = 0) :
    s.doClone = s := by
  simp [Sys.doClone, hs]

lemma doDrop_eq {M A : Type} (s : Sys M A) :
    s.doDrop = { s with chan := { s.chan with senders := s.chan.senders - 1 } } :=
  rfl

lemma doLoop_not_running {M A : Type} {s : Sys M A} (recvF : A → M → Option A)
    (hl : s.loop ≠ LoopSt.running) :
    s.doLoop recvF = s := by
  cases h : s.loop <;> simp_all [Sys.doLoop]

lemma doLoop_blocked {M A : Type} {s : Sys M A} (recvF : A → M → Option A)
    (hl : s.loop = LoopSt.running) (hq : s.chan.queue = [])
    (hs : s.chan.senders ≠ 0) :
    s.doLoop recvF = s := by
  simp [Sys.doLoop, hl, hq, hs]

lemma doLoop_close {M A : Type} {s : Sys M A} (recvF : A → M → Option A)
    (hl : s.loop = LoopSt.running) (hq : s.chan.queue = [])
    (hs : s.chan.senders = 0) :
    s.doLoop recvF =
      { s with loop := LoopSt.terminated
               chan := { s.chan with receiverAlive := false } } := by
  simp [Sys.doLoop, hl, hq, hs]

lemma doLoop_deliver {M A : Type} {s : Sys M A} {m : M} {rest : List M}
    {a2 : A} (recvF : A → M → Option A)
    (hl : s.loop = LoopSt.running) (hq : s.chan.queue = m :: rest)
    (hr : recvF s.actor m = some a2) :
    s.doLoop recvF =
      { s with actor := a2
               delivered := s.delivered ++ [m]
               chan := { s.chan with queue := rest } } := by
  simp [Sys.doLoop, hl, hq, hr]

lemma doLoop_panic {M A : Type} {s : Sys M A} {m : M} {rest : List M}
    (recvF : A → M → Option A)
    (hl : s.loop = LoopSt.running) (hq : s.chan.queue = m :: rest)
    (hr : recvF s.actor m = none) :
    s.doLoop recvF =
      { s with loop := LoopSt.panicked
               chan := { s.chan with queue := [], receiverAlive := false } } := by
  simp [Sys.doLoop, hl, hq, hr]

lemma step_send {M A : Type} (recvF : A → M → Option A) (s : Sys M A) (m : M) :
    step recvF s (Event.send m) = s.doSend m := rfl

lemma step_clone {M A : Type} (recvF : A → M → Option A) (s : Sys M A) :
    step recvF s Event.cloneH = s.doClone := rfl

lemma step_drop {M A : Type} (recvF : A → M → Option A) (s : Sys M A) :
    step recvF s Event.dropH = s.doDrop := rfl

lemma step_loop {M A : Type} (recvF : A → M → Option A) (s : Sys M A) :
    step recvF s Event.loopStep = s.doLoop recvF := rfl

lemma sendMsgs_nil {M : Type} : sendMsgs ([] : List (Event M)) = [] := rfl

lemma sendMsgs_cons_send {M : Type} (m : M) (es : List (Event M)) :
    sendMsgs (Event.send m :: es) = m :: sendMsgs es := by
  simp [sendMsgs]

lemma sendMsgs_cons_clone {M : Type} (es : List (Event M)) :
    sendMsgs (Event.cloneH :: es) = sendMsgs es := by
  simp [sendMsgs]

lemma sendMsgs_cons_drop {M : Type} (es : List (Event M)) :
    sendMsgs (Event.dropH :: es) = sendMsgs es := by
  simp [sendMsgs]

lemma sendMsgs_cons_loop {M : Type} (es : List (Event M)) :
    sendMsgs (Event.loopStep :: es) = sendMsgs es := by
  simp [sendMsgs]

/-! ## Preservation of the invariants -/

lemma sysInv_init {M A : Type} (a : A) : SysInv (Sys.init (M := M) a) := by
  refine ⟨by simp [Sys.init], by simp [Sys.init], by simp [Sys.init]⟩

lemma sysInv_step {M A : Type} (recvF : A → M → Option A) (e : Event M)
    {s : Sys M A} (h : SysInv s) : SysInv (step recvF s e) := by
  obtain ⟨h1, h2, h3⟩ := h
  cases e with
  | send m =>
    rw [step_send]
    rcases Nat.eq_zero_or_pos s.chan.senders with hs | hs
    · rw [doSend_noHandle m hs]; exact ⟨h1, h2, h3⟩
    · cases ha : s.chan.receiverAlive with
      | false => rw [doSend_dead m ha]; exact ⟨h1, h2, h3⟩
      | true =>
        rw [doSend_pos m hs ha]
        refine ⟨by simpa using h1, ?_, ?_⟩
        · intro hp
          have h2' := h2 hp
          simp only [← List.append_assoc]
          simpa using congrArg (fun l => l ++ [m]) h2'
        · intro hnr
          exact absurd (h1.mp ha) hnr
  | cloneH =>
    rw [step_clone]
    rcases Nat.eq_zero_or_pos s.chan.senders with hs | hs
    · rw [doClone_noHandle hs]; exact ⟨h1, h2, h3⟩
    · rw [doClone_pos hs]; exact ⟨by simpa using h1, by simpa using h2, by simpa using h3⟩
  | dropH =>
    rw [step_drop, doDrop_eq]
    exact ⟨by simpa using h1, by simpa using h2, by simpa using h3⟩
  | loopStep =>
    rw [step_loop]
    cases hl : s.loop with
    | terminated =>
      rw [doLoop_not_running recvF (by simp [hl])]; exact ⟨h1, h2, h3⟩
    | panicked =>
      rw [doLoop_not_running recvF (by simp [hl])]; exact ⟨h1, h2, h3⟩
    | running =>
      cases hq : s.chan.queue with
      | nil =>
        by_cases hs : s.chan.senders = 0
        · rw [doLoop_close recvF hl hq hs]
          refine ⟨by simp, ?_, by simpa using hq⟩
          intro hp
          have h2' := h2 (by simp [hl])
          simpa using h2'
        · rw [doLoop_blocked recvF hl hq hs]; exact ⟨h1, h2, h3⟩
      | cons m rest =>
        cases hr : recvF s.actor m with
        | none =>
          rw [doLoop_panic recvF hl hq hr]
          exact ⟨by simp, by simp, by simp⟩
        | some a2 =>
          rw [doLoop_deliver recvF hl hq hr]
          refine ⟨by simpa [hl] using h1, ?_, by simp [hl]⟩
          intro hp
          have h2' := h2 (by simp [hl])
          rw [hq] at h2'
          simpa [List.append_assoc] using h2'

lemma sysInv_run {M A : Type} (recvF : A → M → Option A) (es : List (Event M)) :
    ∀ {s : Sys M A}, SysInv s → SysInv (run recvF s es) := by
  induction es with
  | nil => intro s h; exact h
  | cons e es ih =>
    intro s h
    rw [run_cons]
    exact ih (sysInv_step recvF e h)

lemma keepsAlive_init {M A : Type} (a : A) :
    HandleKeepsAlive (Sys.init (M := M) a) := by
  intro _
  exact ⟨rfl, rfl⟩

lemma keepsAlive_step {M A : Type} {recvF : A → M → Option A}
    (hrecv : ∀ a m, (recvF a m).isSome = true) (e : Event M)
    {s : Sys M A} (h : HandleKeepsAlive s) : HandleKeepsAlive (step recvF s e) := by
  cases e with
  | send m =>
    rw [step_send]
    rcases Nat.eq_zero_or_pos s.chan.senders with hs | hs
    · rw [doSend_noHandle m hs]; exact h
    · obtain ⟨hl, ha⟩ := h hs
      rw [doSend_pos m hs ha]
      intro _
      exact ⟨hl, ha⟩
  | cloneH =>
    rw [step_clone]
    rcases Nat.eq_zero_or_pos s.chan.senders with hs | hs
    · rw [doClone_noHandle hs]; exact h
    · obtain ⟨hl, ha⟩ := h hs
      rw [doClone_pos hs]
      intro _
      exact ⟨hl, ha⟩
  | dropH =>
    rw [step_drop, doDrop_eq]
    intro hpos
    have hs : 0 < s.chan.senders := by
      have : 0 < s.chan.senders - 1 := hpos
      omega
    exact h hs
  | loopStep =>
    rw [step_loop]
    cases hl : s.loop with
    | terminated => rw [doLoop_not_running recvF (by simp [hl])]; exact h
    | panicked => rw [doLoop_not_running recvF (by simp [hl])]; exact h
    | running =>
      cases hq : s.chan.queue with
      | nil =>
        by_cases hs : s.chan.senders = 0
        · rw [doLoop_close recvF hl hq hs]
          intro hpos
          simp only at hpos
          omega
        · rw [doLoop_blocked recvF hl hq hs]; exact h
      | cons m rest =>
        have hsome := hrecv s.actor m
        rw [Option.isSome_iff_exists] at hsome
        obtain ⟨a2, hr⟩ := hsome
        rw [doLoop_deliver recvF hl hq hr]
        intro hpos
        obtain ⟨_, ha⟩ := h hpos
        exact ⟨hl, ha⟩

lemma keepsAlive_run {M A : Type} {recvF : A → M → Option A}
    (hrecv : ∀ a m, (recvF a m).isSome = true) (es : List (Event M)) :
    ∀ {s : Sys M A}, HandleKeepsAlive s → HandleKeepsAlive (run recvF s es) := by
  induction es with
  | nil => intro s h; exact h
  | cons e es ih =>
    intro s h
    rw [run_cons]
    exact ih (keepsAlive_step hrecv e h)

lemma step_frozen {M A : Type} (recvF : A → M → Option A) (e : Event M)
    {s : Sys M A} (hl : s.loop ≠ LoopSt.running)
    (ha : s.chan.receiverAlive = false) :
    (step recvF s e).loop = s.loop
    ∧ (step recvF s e).chan.receiverAlive = false
    ∧ (step recvF s e).chan.queue = s.chan.queue
    ∧ (step recvF s e).delivered = s.delivered
    ∧ (step recvF s e).sentOK = s.sentOK
    ∧ (step recvF s e).actor = s.actor := by
  cases e with
  | send m =>
    rw [step_send, doSend_dead m ha]
    exact ⟨rfl, ha, rfl, rfl, rfl, rfl⟩
  | cloneH =>
    rw [step_clone]
    rcases Nat.eq_zero_or_pos s.chan.senders with hs | hs
    · rw [doClone_noHandle hs]; exact ⟨rfl, ha, rfl, rfl, rfl, rfl⟩
    · rw [doClone_pos hs]; exact ⟨rfl, ha, rfl, rfl, rfl, rfl⟩
  | dropH =>
    rw [step_drop, doDrop_eq]
    exact ⟨rfl, ha, rfl, rfl, rfl, rfl⟩
  | loopStep =>
    rw [step_loop, doLoop_not_running recvF hl]
    exact ⟨rfl, ha, rfl, rfl, rfl, rfl⟩

lemma run_frozen {M A : Type} (recvF : A → M → Option A) (es : List (Event M)) :
    ∀ {s : Sys M A}, s.loop ≠ LoopSt.running → s.chan.receiverAlive = false →
    (run recvF s es).loop = s.loop
    ∧ (run recvF s es).chan.receiverAlive = false
    ∧ (run recvF s es).chan.queue = s.chan.queue
    ∧ (run recvF s es).delivered = s.delivered
    ∧ (run recvF s es).sentOK = s.sentOK
    ∧ (run recvF s es).actor = s.actor := by
  induction es with
  | nil => intro s hl ha; exact ⟨rfl, ha, rfl, rfl, rfl, rfl⟩
  | cons e es ih =>
    intro s hl ha
    obtain ⟨f1, f2, f3, f4, f5, f6⟩ := step_frozen recvF e hl ha
    rw [run_cons]
    obtain ⟨g1, g2, g3, g4, g5, g6⟩ := ih (by rw [f1]; exact hl) f2
    exact ⟨g1.trans f1, g2, g3.trans f3, g4.trans f4, g5.trans f5, g6.trans f6⟩

lemma run_nodrop {M A : Type} {recvF : A → M → Option A}
    (hrecv : ∀ a m, (recvF a m).isSome = true) (es : List (Event M)) :
    ∀ {s : Sys M A}, Event.dropH ∉ es →
    s.loop = LoopSt.running → s.chan.receiverAlive = true → 0 < s.chan.senders →
    (run recvF s es).loop = LoopSt.running
    ∧ (run recvF s es).chan.receiverAlive = true
    ∧ 0 < (run recvF s es).chan.senders
    ∧ (run recvF s es).sentOK = s.sentOK ++ sendMsgs es := by
  induction es with
  | nil =>
    intro s _ hl ha hs
    exact ⟨hl, ha, hs, by simp [run_nil, sendMsgs_nil]⟩
  | cons e es ih =>
    intro s hmem hl ha hs
    have hmem' : Event.dropH ∉ es := fun hx => hmem (List.mem_cons_of_mem e hx)
    have hne : e ≠ Event.dropH := fun hx => hmem (hx ▸ List.mem_cons_self e es)
    rw [run_cons]
    cases e with
    | send m =>
      have hstep : step recvF s (Event.send m) =
          { s with chan := { s.chan with queue := s.chan.queue ++ [m] }
                   sentOK := s.sentOK ++ [m] } := by
        rw [step_send, doSend_pos m hs ha]
      have hl' : (step recvF s (Event.send m)).loop = LoopSt.running := by
        rw [hstep]; exact hl
      have ha' : (step recvF s (Event.send m)).chan.receiverAlive = true := by
        rw [hstep]; exact ha
      have hs' : 0 < (step recvF s (Event.send m)).chan.senders := by
        rw [hstep]; exact hs
      have hOK : (step recvF s (Event.send m)).sentOK = s.sentOK ++ [m] := by
        rw [hstep]
      obtain ⟨g1, g2, g3, g4⟩ := ih hmem' hl' ha' hs'
      refine ⟨g1, g2, g3, ?_⟩
      rw [g4, hOK, sendMsgs_cons_send]
      simp
    | cloneH =>
      have hstep : step recvF s Event.cloneH =
          { s with chan := { s.chan with senders := s.chan.senders + 1 } } := by
        rw [step_clone, doClone_pos hs]
      have hl' : (step recvF s Event.cloneH).loop = LoopSt.running := by
        rw [hstep]; exact hl
      have ha' : (step recvF s Event.cloneH).chan.receiverAlive = true := by
        rw [hstep]; exact ha
      have hs' : 0 < (step recvF s Event.cloneH).chan.senders := by
        rw [hstep]; simp
      have hOK : (step recvF s Event.cloneH).sentOK = s.sentOK := by
        rw [hstep]
      obtain ⟨g1, g2, g3, g4⟩ := ih hmem' hl' ha' hs'
      exact ⟨g1, g2, g3, by rw [g4, hOK, sendMsgs_cons_clone]⟩
    | dropH => exact absurd rfl hne
    | loopStep =>
      cases hq : s.chan.queue with
      | nil =>
        have hstep : step recvF s Event.loopStep = s := by
          rw [step_loop, doLoop_blocked recvF hl hq (by omega)]
        rw [hstep, sendMsgs_cons_loop]
        exact ih hmem' hl ha hs
      | cons m rest =>
        have hsome := hrecv s.actor m
        rw [Option.isSome_iff_exists] at hsome
        obtain ⟨a2, hr⟩ := hsome
        have hstep : step recvF s Event.loopStep =
            { s with actor := a2
                     delivered := s.delivered ++ [m]
                     chan := { s.chan with queue := rest } } := by
          rw [step_loop, doLoop_deliver recvF hl hq hr]
        have hl' : (step recvF s Event.loopStep).loop = LoopSt.running := by
          rw [hstep]; exact hl
        have ha' : (step recvF s Event.loopStep).chan.receiverAlive = true := by
          rw [hstep]; exact ha
        have hs' : 0 < (step recvF s Event.loopStep).chan.senders := by
          rw [hstep]; exact hs
        have hOK : (step recvF s Event.loopStep).sentOK = s.sentOK := by
          rw [hstep]
        obtain ⟨g1, g2, g3, g4⟩ := ih hmem' hl' ha' hs'
        exact ⟨g1, g2, g3, by rw [g4, hOK, sendMsgs_cons_loop]⟩

lemma run_drain {M A : Type} {recvF : A → M → Option A}
    (hrecv : ∀ a m, (recvF a m).isSome = true) :
    ∀ (q : List M) {s : Sys M A},
    s.loop = LoopSt.running → s.chan.queue = q →
    run recvF s (List.replicate q.length Event.loopStep) =
      { s with chan := { s.chan with queue := [] }
               delivered := s.delivered ++ q
               actor := q.foldl (fun a m => (recvF a m).getD a) s.actor } := by
  intro q
  induction q with
  | nil =>
    intro s hl hq
    simp only [List.length_nil, List.replicate_zero, run_nil, List.foldl_nil,
      List.append_nil]
    rw [← hq]
  | cons m rest ih =>
    intro s hl hq
    have hsome := hrecv s.actor m
    rw [Option.isSome_iff_exists] at hsome
    obtain ⟨a2, hr⟩ := hsome
    have hstep : step recvF s Event.loopStep =
        { s with actor := a2
                 delivered := s.delivered ++ [m]
                 chan := { s.chan with queue := rest } } := by
      rw [step_loop, doLoop_deliver recvF hl hq hr]
    have hl' : (step recvF s Event.loopStep).loop = LoopSt.running := by
      rw [hstep]; exact hl
    have hq' : (step recvF s Event.loopStep).chan.queue = rest := by
      rw [hstep]
    rw [List.length_cons, List.replicate_succ, run_cons, ih hl' hq', hstep]
    simp [hr, List.append_assoc]

lemma step_fold {M A : Type} (recvF : A → M → Option A) (a0 : A) (e : Event M)
    {s : Sys M A}
    (h : s.actor = s.delivered.foldl (fun a m => (recvF a m).getD a) a0) :
    (step recvF s e).actor =
      (step recvF s e).delivered.foldl (fun a m => (recvF a m).getD a) a0 := by
  cases e with
  | send m =>
    rw [step_send]
    rcases Nat.eq_zero_or_pos s.chan.senders with hs | hs
    · rw [doSend_noHandle m hs]; exact h
    · cases ha : s.chan.receiverAlive with
      | false => rw [doSend_dead m ha]; exact h
      | true => rw [doSend_pos m hs ha]; exact h
  | cloneH =>
    rw [step_clone]
    rcases Nat.eq_zero_or_pos s.chan.senders with hs | hs
    · rw [doClone_noHandle hs]; exact h
    · rw [doClone_pos hs]; exact h
  | dropH =>
    rw [step_drop, doDrop_eq]; exact h
  | loopStep =>
    rw [step_loop]
    cases hl : s.loop with
    | terminated => rw [doLoop_not_running recvF (by simp [hl])]; exact h
    | panicked => rw [doLoop_not_running recvF (by simp [hl])]; exact h
    | running =>
      cases hq : s.chan.queue with
      | nil =>
        by_cases hs : s.chan.senders = 0
        · rw [doLoop_close recvF hl hq hs]; exact h
        · rw [doLoop_blocked recvF hl hq hs]; exact h
      | cons m rest =>
        cases hr : recvF s.actor m with
        | none => rw [doLoop_panic recvF hl hq hr]; exact h
        | some a2 =>
          rw [doLoop_deliver recvF hl hq hr]
          simp only [List.foldl_append, List.foldl_cons, List.foldl_nil, ← h, hr]
          rfl

lemma run_fold {M A : Type} (recvF : A → M → Option A) (a0 : A)
    (es : List (Event M)) :
    ∀ {s : Sys M A},
    s.actor = s.delivered.foldl (fun a m => (recvF a m).getD a) a0 →
    (run recvF s es).actor =
      (run recvF s es).delivered.foldl (fun a m => (recvF a m).getD a) a0 := by
  induction es with
  | nil => intro s h; exact h
  | cons e es ih =>
    intro s h
    rw [run_cons]
    exact ih (step_fold recvF a0 e h)

/-! ## `modifyAt` bookkeeping for the world of actors -/

lemma length_modifyAt {α : Type} (f : α → α) :
    ∀ (n : Nat) (l : List α), (modifyAt f n l).length = l.length := by
  intro n l
  induction l generalizing n with
  | nil => cases n <;> rfl
  | cons x xs ih =>
    cases n with
    | zero => rfl
    | succ k => simp [modifyAt, ih k]

lemma modifyAt_getElem_self {α : Type} (f : α → α) :
    ∀ (n : Nat) (l : List α), (modifyAt f n l)[n]? = (l[n]?).map f := by
  intro n l
  induction l generalizing n with
  | nil => cases n <;> rfl
  | cons x xs ih =>
    cases n with
    | zero => simp [modifyAt]
    | succ k =>
      simp only [modifyAt, List.getElem?_cons_succ]
      exact ih k

lemma modifyAt_getElem_other {α : Type} (f : α → α) :
    ∀ {i n : Nat} (l : List α), i ≠ n → (modifyAt f n l)[i]? = l[i]? := by
  intro i n l
  induction l generalizing i n with
  | nil => intro _; cases n <;> rfl
  | cons x xs ih =>
    intro hne
    cases n with
    | zero =>
      cases i with
      | zero => exact absurd rfl hne
      | succ j => simp [modifyAt]
    | succ k =>
      cases i with
      | zero => simp [modifyAt]
      | succ j =>
        simp only [modifyAt, List.getElem?_cons_succ]
        exact ih (fun hx => hne (by rw [hx]))

/-! ## The claims -/

/-- C1: for every sequence of messages sent through a single Handle (the
producer keeps its Handle: no drop event) to one actor whose `recv` returns
normally, the messages `recv` has been invoked on so far, followed by the
messages still queued, are exactly the sent messages in send order; and once
the loop has processed the remaining queue, `recv` has been invoked exactly
once per sent message, on exactly those messages, in send order. -/
theorem single_producer_fifo_delivery {M A : Type} (recvF : A → M → Option A)
    (a0 : A) (es : List (Event M))
    (hrecv : ∀ a m, (recvF a m).isSome = true)
    (hnd : Event.dropH ∉ es) :
    (run recvF (Sys.init a0) es).delivered
        ++ (run recvF (Sys.init a0) es).chan.queue = sendMsgs es
    ∧ (run recvF (run recvF (Sys.init a0) es)
        (List.replicate (run recvF (Sys.init a0) es).chan.queue.length
          Event.loopStep)).delivered = sendMsgs es := by
  have hInv := sysInv_run recvF es (sysInv_init (M := M) a0)
  obtain ⟨g1, g2, g3, g4⟩ :=
    run_nodrop hrecv es (s := Sys.init a0) hnd rfl rfl (by simp [Sys.init])
  have hist := hInv.2.1 (by rw [g1]; simp)
  have hsent : (run recvF (Sys.init a0) es).sentOK = sendMsgs es := by
    rw [g4]; simp [Sys.init]
  constructor
  · rw [hist, hsent]
  · rw [run_drain hrecv ((run recvF (Sys.init a0) es).chan.queue) g1 rfl]
    show (run recvF (Sys.init a0) es).delivered
        ++ (run recvF (Sys.init a0) es).chan.queue = sendMsgs es
    rw [hist, hsent]

theorem single_producer_fifo_delivery_w :
    (Event.dropH ∉ esW)
    ∧ (run recvLog (Sys.init []) esW).delivered
        ++ (run recvLog (Sys.init []) esW).chan.queue = sendMsgs esW
    ∧ (run recvLog (run recvLog (Sys.init []) esW)
        (List.replicate (run recvLog (Sys.init []) esW).chan.queue.length
          Event.loopStep)).delivered = sendMsgs esW := by
  have h := single_producer_fifo_delivery recvLog [] esW
    (fun a m => rfl) (by decide)
  exact ⟨by decide, h.1, h.2⟩

/-- C2: strict serialization of `recv`.  Each iteration of the loop dequeues
exactly one message and runs `recv` synchronously to completion within that
single atomic step, before the next message is even considered; consequently
the actor state reached along any interleaving of concurrent sender events
is the strictly sequential left fold of `recv` over the delivered messages,
with no two invocations overlapping. -/
theorem recv_strict_serialization {M A : Type} (recvF : A → M → Option A)
    (a0 : A) (es : List (Event M)) :
    (run recvF (Sys.init a0) es).actor
      = (run recvF (Sys.init a0) es).delivered.foldl
          (fun a m => (recvF a m).getD a) a0
    ∧ ∀ (s : Sys M A) (m : M) (rest : List M) (a2 : A),
        s.loop = LoopSt.running → s.chan.queue = m :: rest →
        recvF s.actor m = some a2 →
        step recvF s Event.loopStep =
          { s with actor := a2
                   delivered := s.delivered ++ [m]
                   chan := { s.chan with queue := rest } } := by
  constructor
  · exact run_fold recvF a0 es rfl
  · intro s m rest a2 hl hq hr
    rw [step_loop, doLoop_deliver recvF hl hq hr]

theorem recv_strict_serialization_w :
    (run recvLog (Sys.init []) esW).actor
      = (run recvLog (Sys.init []) esW).delivered.foldl
          (fun a m => (recvLog a m).getD a) []
    ∧ step recvLog sOne Event.loopStep =
        { sOne with actor := [5]
                    delivered := sOne.delivered ++ [5]
                    chan := { sOne.chan with queue := [] } } := by
  have h := recv_strict_serialization recvLog [] esW
  exact ⟨h.1, h.2 sOne 5 [] [5] (by decide) (by decide) (by decide)⟩

/-- C3: graceful drain on drop.  From any state in which every Handle has
been dropped while the loop still runs (and `recv` returns normally), the
loop delivers every message still buffered in the mailbox, in order, and
only then terminates; moreover a running loop can only ever terminate by a
loop iteration finding the queue empty with no sender left — dropping all
Handles (plus exhausting the queue) is the sole shutdown condition. -/
theorem drain_on_drop {M A : Type} (recvF : A → M → Option A)
    (hrecv : ∀ a m, (recvF a m).isSome = true) (s : Sys M A)
    (h0 : s.chan.senders = 0) (hl : s.loop = LoopSt.running) :
    (run recvF s (List.replicate (s.chan.queue.length + 1) Event.loopStep)).loop
        = LoopSt.terminated
    ∧ (run recvF s
        (List.replicate (s.chan.queue.length + 1) Event.loopStep)).delivered
        = s.delivered ++ s.chan.queue
    ∧ ∀ (t : Sys M A) (e : Event M), t.loop = LoopSt.running →
        (step recvF t e).loop = LoopSt.terminated →
        t.chan.senders = 0 ∧ t.chan.queue = [] ∧ e = Event.loopStep := by
  have hdrain := run_drain hrecv s.chan.queue (s := s) hl rfl
  have hrepl : List.replicate (s.chan.queue.length + 1) (Event.loopStep (M := M))
      = List.replicate s.chan.queue.length (Event.loopStep (M := M))
        ++ [Event.loopStep (M := M)] :=
    List.replicate_succ' _ _
  have hl2 : (run recvF s
      (List.replicate s.chan.queue.length Event.loopStep)).loop
        = LoopSt.running := by
    rw [hdrain]; exact hl
  have hq2 : (run recvF s
      (List.replicate s.chan.queue.length Event.loopStep)).chan.queue = [] := by
    rw [hdrain]
  have hs2 : (run recvF s
      (List.replicate s.chan.queue.length Event.loopStep)).chan.senders = 0 := by
    rw [hdrain]; exact h0
  have hterm0 :
      run recvF s (List.replicate (s.chan.queue.length + 1) Event.loopStep)
        = Sys.doLoop recvF
            (run recvF s (List.replicate s.chan.queue.length Event.loopStep)) := by
    rw [hrepl, run_append]
    rfl
  refine ⟨by rw [hterm0, doLoop_close recvF hl2 hq2 hs2, hdrain],
    by rw [hterm0, doLoop_close recvF hl2 hq2 hs2, hdrain], ?_⟩
  intro t e hlt hstept
  cases e with
  | send m =>
    exfalso
    rcases Nat.eq_zero_or_pos t.chan.senders with hs | hs
    · rw [step_send, doSend_noHandle m hs, hlt] at hstept
      simp at hstept
    · cases ha : t.chan.receiverAlive with
      | false =>
        rw [step_send, doSend_dead m ha, hlt] at hstept
        simp at hstept
      | true =>
        rw [step_send, doSend_pos m hs ha] at hstept
        simp only [hlt] at hstept
        simp at hstept
  | cloneH =>
    exfalso
    rcases Nat.eq_zero_or_pos t.chan.senders with hs | hs
    · rw [step_clone, doClone_noHandle hs, hlt] at hstept
      simp at hstept
    · rw [step_clone, doClone_pos hs] at hstept
      simp only [hlt] at hstept
      simp at hstept
  | dropH =>
    exfalso
    rw [step_drop, doDrop_eq] at hstept
    simp only [hlt] at hstept
    simp at hstept
  | loopStep =>
    cases hq : t.chan.queue with
    | nil =>
      by_cases hs : t.chan.senders = 0
      · exact ⟨hs, rfl, rfl⟩
      · exfalso
        rw [step_loop, doLoop_blocked recvF hlt hq hs, hlt] at hstept
        simp at hstept
    | cons m rest =>
      exfalso
      cases hr : recvF t.actor m with
      | some a2 =>
        rw [step_loop, doLoop_deliver recvF hlt hq hr] at hstept
        simp only [hlt] at hstept
        simp at hstept
      | none =>
        rw [step_loop, doLoop_panic recvF hlt hq hr] at hstept
        simp at hstept

theorem drain_on_drop_w :
    (run recvLog sDrop
        (List.replicate (sDrop.chan.queue.length + 1) Event.loopStep)).loop
      = LoopSt.terminated
    ∧ (run recvLog sDrop
        (List.replicate (sDrop.chan.queue.length + 1) Event.loopStep)).delivered
      = sDrop.delivered ++ sDrop.chan.queue := by
  have h := drain_on_drop recvLog (fun a m => rfl) sDrop (by decide) (by decide)
  exact ⟨h.1, h.2.1⟩

/-- C4: fire-and-forget send.  `Handle::send` returns `()` in every state —
it is total, discarding the `Result` of the underlying channel send — and
behaves as follows in every reachable state: if the receiving loop is no
longer running (it terminated after all Handles were dropped, or its task
ended with a panic) the message is silently dropped, and while the loop is
running a send through a live Handle enqueues the message; no error, panic
or blocking is ever surfaced to the caller. -/
theorem send_fire_and_forget {M A : Type} (recvF : A → M → Option A)
    (a0 : A) (es : List (Event M)) (m : M) :
    ((run recvF (Sys.init a0) es).loop ≠ LoopSt.running →
      step recvF (run recvF (Sys.init a0) es) (Event.send m)
        = run recvF (Sys.init a0) es)
    ∧ ((run recvF (Sys.init a0) es).loop = LoopSt.running →
        0 < (run recvF (Sys.init a0) es).chan.senders →
        (step recvF (run recvF (Sys.init a0) es) (Event.send m)).chan.queue
          = (run recvF (Sys.init a0) es).chan.queue ++ [m]) := by
  have hInv := sysInv_run recvF es (sysInv_init (M := M) a0)
  constructor
  · intro hnr
    have ha : (run recvF (Sys.init a0) es).chan.receiverAlive = false := by
      cases hb : (run recvF (Sys.init a0) es).chan.receiverAlive with
      | false => rfl
      | true => exact absurd (hInv.1.mp hb) hnr
    rw [step_send, doSend_dead m ha]
  · intro hl hs
    have ha := hInv.1.mpr hl
    rw [step_send, doSend_pos m hs ha]

theorem send_fire_and_forget_w :
    step recvLog (run recvLog (Sys.init []) [Event.dropH, Event.loopStep])
        (Event.send 7)
      = run recvLog (Sys.init []) [Event.dropH, Event.loopStep]
    ∧ (step recvLog (run recvLog (Sys.init []) esW) (Event.send 7)).chan.queue
      = (run recvLog (Sys.init []) esW).chan.queue ++ [7] := by
  have h1 := send_fire_and_forget recvLog [] [Event.dropH, Event.loopStep] 7
  have h2 := send_fire_and_forget recvLog [] esW 7
  exact ⟨h1.1 (by decide), h2.2 (by decide) (by decide)⟩

/-- C5: as long as at least one Handle (the original or any clone) is alive
— and the actor's `recv` returns normally, so the loop cannot have died of a
panic — the mailbox and its consumer remain reachable: the loop is still
running, and every send performed through a live Handle enqueues its message
into the actor's mailbox. -/
theorem mailbox_reachable_while_handle_alive {M A : Type}
    (recvF : A → M → Option A) (hrecv : ∀ a m, (recvF a m).isSome = true)
    (a0 : A) (es : List (Event M)) (m : M)
    (hpos : 0 < (run recvF (Sys.init a0) es).chan.senders) :
    (run recvF (Sys.init a0) es).loop = LoopSt.running
    ∧ (step recvF (run recvF (Sys.init a0) es) (Event.send m)).chan.queue
        = (run recvF (Sys.init a0) es).chan.queue ++ [m] := by
  obtain ⟨hl, ha⟩ := keepsAlive_run hrecv es (keepsAlive_init (M := M) a0) hpos
  refine ⟨hl, ?_⟩
  rw [step_send, doSend_pos m hpos ha]

theorem mailbox_reachable_while_handle_alive_w :
    (run recvLog (Sys.init []) esW).loop = LoopSt.running
    ∧ (step recvLog (run recvLog (Sys.init []) esW) (Event.send 9)).chan.queue
        = (run recvLog (Sys.init []) esW).chan.queue ++ [9] :=
  mailbox_reachable_while_handle_alive recvLog (fun a m => rfl) [] esW 9
    (by decide)

/-- C6: a cloned Handle refers to one and the same actor instance.
`Handle::clone` returns a Handle to exactly the channel the original points
to (same mailbox, same loop, same actor state), creates no new channel (the
world holds exactly as many actor instances as before), a send through the
clone is literally the same operation as a send through the original, it
lands in the original's mailbox, and touches no other actor. -/
theorem clone_delivers_to_same_actor {M A : Type} (w : World M A) (h : Nat)
    (m : M) :
    (Handle.clone w h).2 = h
    ∧ ((Handle.clone w h).1).chans.length = w.chans.length
    ∧ World.sendH (Handle.clone w h).1 (Handle.clone w h).2 m
        = World.sendH (Handle.clone w h).1 h m
    ∧ (World.sendH (Handle.clone w h).1 (Handle.clone w h).2 m).chans[h]?
        = (((Handle.clone w h).1).chans[h]?).map (fun s => s.doSend m)
    ∧ ∀ j, j ≠ h →
        (World.sendH (Handle.clone w h).1 (Handle.clone w h).2 m).chans[j]?
          = ((Handle.clone w h).1).chans[j]? := by
  refine ⟨rfl, length_modifyAt _ _ _, rfl, modifyAt_getElem_self _ _ _, ?_⟩
  intro j hj
  exact modifyAt_getElem_other _ _ hj

theorem clone_delivers_to_same_actor_w :
    (Handle.clone wEx 0).2 = 0
    ∧ ((Handle.clone wEx 0).1).chans.length = wEx.chans.length
    ∧ World.sendH (Handle.clone wEx 0).1 (Handle.clone wEx 0).2 3
        = World.sendH (Handle.clone wEx 0).1 0 3
    ∧ (World.sendH (Handle.clone wEx 0).1 (Handle.clone wEx 0).2 3).chans[0]?
        = (((Handle.clone wEx 0).1).chans[0]?).map (fun s => s.doSend 3)
    ∧ (World.sendH (Handle.clone wEx 0).1 (Handle.clone wEx 0).2 3).chans[1]?
        = ((Handle.clone wEx 0).1).chans[1]? := by
  have h := clone_delivers_to_same_actor wEx 0 3
  exact ⟨h.1, h.2.1, h.2.2.1, h.2.2.2.1, h.2.2.2.2 1 (by decide)⟩

/-- C7: `Handle::clone` has no side effect beyond one more producer on the
same channel: the cloned channel changes only its sender count (the
structure update shows the queue, the receiver, the loop condition, the
actor state and both histories unchanged), every other channel in the world
is untouched, and no channel is created or destroyed. -/
theorem clone_only_increments_count {M A : Type} (w : World M A) (h : Nat) :
    ((Handle.clone w h).1.chans.length = w.chans.length)
    ∧ ((Handle.clone w h).1.chans[h]? = (w.chans[h]?).map Sys.doClone)
    ∧ (∀ j, j ≠ h → (Handle.clone w h).1.chans[j]? = w.chans[j]?)
    ∧ ∀ (s : Sys M A), 0 < s.chan.senders →
        s.doClone =
          { s with chan := { s.chan with senders := s.chan.senders + 1 } } := by
  refine ⟨length_modifyAt _ _ _, modifyAt_getElem_self _ _ _, ?_, ?_⟩
  · intro j hj
    exact modifyAt_getElem_other _ _ hj
  · intro s hs
    exact doClone_pos hs

theorem clone_only_increments_count_w :
    ((Handle.clone wEx 0).1.chans.length = wEx.chans.length)
    ∧ ((Handle.clone wEx 0).1.chans[0]? = (wEx.chans[0]?).map Sys.doClone)
    ∧ ((Handle.clone wEx 0).1.chans[1]? = wEx.chans[1]?)
    ∧ (Sys.init [] : Sys Nat (List Nat)).doClone =
        { (Sys.init [] : Sys Nat (List Nat)) with
            chan := { (Sys.init [] : Sys Nat (List Nat)).chan with
              senders := (Sys.init [] : Sys Nat (List Nat)).chan.senders + 1 } } := by
  have h := clone_only_increments_count wEx 0
  exact ⟨h.1, h.2.1, h.2.2.1 1 (by decide), h.2.2.2 (Sys.init []) (by decide)⟩

/-- C8: `Handle::new` cannot fail: it is a total function that, for every
actor value and every prior state of the world, extends the world by exactly
one fresh instance — an empty unbounded mailbox whose loop is spawned and
running, bound to the given actor value, with exactly one live sender — and
the returned Handle points at that instance and is immediately usable: a
send through it enqueues the message into the fresh mailbox. -/
theorem handle_new_cannot_fail {M A : Type} (w : World M A) (a : A) (m : M) :
    ((Handle.new w a).1.chans.length = w.chans.length + 1)
    ∧ ((Handle.new w a).1.chans[(Handle.new w a).2]? = some (Sys.init a))
    ∧ ((Sys.init a : Sys M A).loop = LoopSt.running
        ∧ (Sys.init a : Sys M A).chan.queue = []
        ∧ (Sys.init a : Sys M A).chan.senders = 1
        ∧ (Sys.init a : Sys M A).chan.receiverAlive = true)
    ∧ ((Sys.init (M := M) a).doSend m).chan.queue = [m] := by
  refine ⟨by simp [Handle.new], ?_, ⟨rfl, rfl, rfl, rfl⟩, ?_⟩
  · exact List.getElem?_concat_length w.chans (Sys.init a)
  · rw [doSend_pos m (by simp [Sys.init]) rfl]
    simp [Sys.init]

/-- C9: a panic inside `recv` gets no special handling from the loop.  The
loop body neither catches nor translates nor retries it: the very step in
which `recv` panics ends the `run_actor` task (modelled as the terminal
`panicked` condition — the failure propagates out of the loop body to the
host scheduler's per-task failure policy), no subsequent interleaving ever
restarts the loop or invokes `recv` again, and a step of one actor's task
leaves every other actor in the world untouched. -/
theorem recv_panic_no_special_handling {M A : Type} (recvF : A → M → Option A)
    (s : Sys M A) (m : M) (rest : List M)
    (hl : s.loop = LoopSt.running) (hq : s.chan.queue = m :: rest)
    (hp : recvF s.actor m = none) :
    (step recvF s Event.loopStep).loop = LoopSt.panicked
    ∧ (∀ es : List (Event M),
        (run recvF (step recvF s Event.loopStep) es).loop = LoopSt.panicked
        ∧ (run recvF (step recvF s Event.loopStep) es).delivered = s.delivered)
    ∧ ∀ (w : World M A) (i j : Nat) (e : Event M), j ≠ i →
        (World.stepAt recvF w i e).chans[j]? = w.chans[j]? := by
  have hstep : step recvF s Event.loopStep =
      { s with loop := LoopSt.panicked
               chan := { s.chan with queue := [], receiverAlive := false } } := by
    rw [step_loop, doLoop_panic recvF hl hq hp]
  have hl2 : (step recvF s Event.loopStep).loop = LoopSt.panicked := by
    rw [hstep]
  have ha2 : (step recvF s Event.loopStep).chan.receiverAlive = false := by
    rw [hstep]
  refine ⟨hl2, ?_, ?_⟩
  · intro es
    obtain ⟨f1, _, _, f4, _, _⟩ :=
      run_frozen recvF es (s := step recvF s Event.loopStep)
        (by rw [hl2]; simp) ha2
    refine ⟨by rw [f1, hl2], ?_⟩
    rw [f4, hstep]
  · intro w i j e hj
    exact modifyAt_getElem_other _ _ hj

theorem recv_panic_no_special_handling_w :
    (step recvPanic0 sPanic Event.loopStep).loop = LoopSt.panicked
    ∧ (run recvPanic0 (step recvPanic0 sPanic Event.loopStep)
        [Event.send 5, Event.loopStep]).loop = LoopSt.panicked
    ∧ (run recvPanic0 (step recvPanic0 sPanic Event.loopStep)
        [Event.send 5, Event.loopStep]).delivered = sPanic.delivered
    ∧ (World.stepAt recvPanic0 wExU 0 Event.loopStep).chans[1]?
        = wExU.chans[1]? := by
  have h := recv_panic_no_special_handling recvPanic0 sPanic 0 [1]
    (by decide) (by decide) (by decide)
  obtain ⟨g1, g2⟩ := h.2.1 [Event.send 5, Event.loopStep]
  exact ⟨h.1, g1, g2, h.2.2 wExU 0 1 Event.loopStep (by decide)⟩

/-- C10: after a panic in `recv`, nothing further is ever delivered.  The
panicking step itself discards the rest of the queue (the task ends and the
receiver is dropped with its buffer), `recv` ran on the failing message but
no message after it is ever dequeued, and under every later interleaving —
sends through still-live Handles included — the delivered history never
grows and the mailbox stays empty: every such message is silently
discarded. -/
theorem panic_discards_queued_and_later_messages {M A : Type}
    (recvF : A → M → Option A) (s : Sys M A) (m : M) (rest : List M)
    (hl : s.loop = LoopSt.running) (hq : s.chan.queue = m :: rest)
    (hp : recvF s.actor m = none) :
    (step recvF s Event.loopStep).chan.queue = []
    ∧ (step recvF s Event.loopStep).delivered = s.delivered
    ∧ ∀ es : List (Event M),
        (run recvF (step recvF s Event.loopStep) es).delivered = s.delivered
        ∧ (run recvF (step recvF s Event.loopStep) es).chan.queue = [] := by
  have hstep : step recvF s Event.loopStep =
      { s with loop := LoopSt.panicked
               chan := { s.chan with queue := [], receiverAlive := false } } := by
    rw [step_loop, doLoop_panic recvF hl hq hp]
  have hl2 : (step recvF s Event.loopStep).loop = LoopSt.panicked := by
    rw [hstep]
  have ha2 : (step recvF s Event.loopStep).chan.receiverAlive = false := by
    rw [hstep]
  have hq2 : (step recvF s Event.loopStep).chan.queue = [] := by
    rw [hstep]
  refine ⟨hq2, by rw [hstep], ?_⟩
  intro es
  obtain ⟨_, _, f3, f4, _, _⟩ :=
    run_frozen recvF es (s := step recvF s Event.loopStep)
      (by rw [hl2]; simp) ha2
  exact ⟨by rw [f4, hstep], by rw [f3, hq2]⟩

theorem panic_discards_queued_and_later_messages_w :
    (step recvPanic0 sPanic Event.loopStep).chan.queue = []
    ∧ (step recvPanic0 sPanic Event.loopStep).delivered = sPanic.delivered
    ∧ (run recvPanic0 (step recvPanic0 sPanic Event.loopStep)
        [Event.send 7]).delivered = sPanic.delivered
    ∧ (run recvPanic0 (step recvPanic0 sPanic Event.loopStep)
        [Event.send 7]).chan.queue = [] := by
  have h := panic_discards_queued_and_later_messages recvPanic0 sPanic 0 [1]
    (by decide) (by decide) (by decide)
  obtain ⟨g1, g2⟩ := h.2.2 [Event.send 7]
  exact ⟨h.1, h.2.1, g1, g2⟩
